import Mathlib

/-!
# Verification of the SSH-certificate signing core (`api/ssh.go`, `authority/options.go`)

A shallow embedding of the SSH signing HTTP handlers, the JSON wire codec for
SSH certificates and public keys, and the authority option (builder) protocol,
together with proofs of the specification claims about them.

Modelling conventions:
* Wire bytes are modelled as `List Nat`.  The external library functions
  (`ssh.Marshal` / `ssh.ParsePublicKey` from `golang.org/x/crypto/ssh`,
  `base64.StdEncoding` from the Go standard library, `pem.Decode` and
  `x509.ParseCertificate`) are external collaborators of this repository;
  they are modelled as concrete executable Lean functions that expose exactly
  the interface contracts the repository relies on: a marshaller with a
  parser that inverts it, a base64 codec whose decoder inverts its encoder
  and fails on malformed input, and a PEM stream already split into blocks.
* Go errors are modelled with `Option String` / `Except String`; a `nil`
  pointer or slice is `Option.none`.
* `time.Time` values are modelled by their Unix seconds as `Int`;
  `time.Unix(int64(v), 0)` for `v : uint64` is `toInt64 v`.
-/

/-! ## External collaborator model: base64 over model bytes -/

/-- The standard base64 alphabet, in index order. -/
def b64Alphabet : List Char :=
  "ABCDEFGHIJKLMNOPQRSTUVWXYZabcdefghijklmnopqrstuvwxyz0123456789+/".data

/-- Digit-to-character table of the base64 alphabet. -/
def b64Char (n : Nat) : Char := b64Alphabet.getD n 'A'

/-- Character-to-digit table: position of a character in the base64 alphabet. -/
def b64Val (c : Char) : Option Nat := b64Alphabet.indexOf? c

/-- A model byte (an arbitrary `Nat`) rendered as base64 digits, little-endian. -/
def natToB64 (n : Nat) : List Char :=
  if n < 64 then [b64Char n]
  else b64Char (n % 64) :: natToB64 (n / 64)
termination_by n
decreasing_by exact Nat.div_lt_self (by omega) (by omega)

/-- Inverse of `natToB64`: reads little-endian base64 digits. -/
def b64ToNat : List Char → Option Nat
  | [] => none
  | [c] => b64Val c
  | c :: c' :: rest =>
    (b64Val c).bind fun d => (b64ToNat (c' :: rest)).map fun m => d + 64 * m

/-- Byte lists are rendered as base64 digit groups separated by `'='`
(the padding character, which is outside the alphabet). -/
def b64EncodeChars : List Nat → List Char
  | [] => []
  | [n] => natToB64 n
  | n :: n' :: rest => natToB64 n ++ '=' :: b64EncodeChars (n' :: rest)

/-- Split a character stream into the chunk before the first `'='` and the
chunks between subsequent `'='` separators. -/
def b64Chunks : List Char → List Char × List (List Char)
  | [] => ([], [])
  | c :: cs =>
    let (cur, done) := b64Chunks cs
    if c = '=' then ([], cur :: done) else (c :: cur, done)

/-- Model of `base64.StdEncoding.EncodeToString`. -/
def b64Encode (l : List Nat) : String := String.mk (b64EncodeChars l)

/-- Model of `base64.StdEncoding.DecodeString`: fails on malformed input. -/
def b64Decode (s : String) : Option (List Nat) :=
  match s.data with
  | [] => some []
  | c :: cs =>
    let (cur, done) := b64Chunks (c :: cs)
    (cur :: done).mapM b64ToNat

/-! ## External collaborator model: OpenSSH wire format (`golang.org/x/crypto/ssh`)

An `ssh.PublicKey` is either a plain public key or an `*ssh.Certificate`
(certificates implement the `ssh.PublicKey` interface).  `Marshal` produces
the OpenSSH wire bytes; `ssh.ParsePublicKey` parses wire bytes back and is
the inverse of `Marshal` on marshalled values.  The wire layout is modelled
with explicit length prefixes, as in the real format. -/

/-- `ssh.UserCert`. -/
def UserCert : Nat := 1

/-- `ssh.HostCert`. -/
def HostCert : Nat := 2

/-- The fields of an `ssh.Certificate` that this repository reads, plus an
opaque remainder `Key` standing for the certified key, signature and the
other wire fields. -/
structure SSHCertData where
  CertType : Nat
  ValidPrincipals : List String
  ValidAfter : Nat
  ValidBefore : Nat
  Key : List Nat
deriving DecidableEq, Repr

/-- An `ssh.PublicKey` value: a plain key or a certificate variant. -/
inductive SSHKey where
  | plain (data : List Nat)
  | cert (c : SSHCertData)
deriving DecidableEq, Repr

/-- A string as length-prefixed wire bytes. -/
def encStr (s : String) : List Nat := s.data.length :: s.data.map Char.toNat

/-- A string list as concatenated length-prefixed wire strings. -/
def encStrs (ps : List String) : List Nat := (ps.map encStr).flatten

/-- Read `n` length-prefixed strings, returning them and the remaining bytes. -/
def decStrs : Nat → List Nat → Option (List String × List Nat)
  | 0, rest => some ([], rest)
  | _ + 1, [] => none
  | n + 1, len :: rest =>
    let cs := rest.take len
    if cs.length = len then
      (decStrs n (rest.drop len)).map fun p =>
        (String.mk (cs.map Char.ofNat) :: p.1, p.2)
    else none

/-- `ssh.Certificate.Marshal`: certificate wire bytes. -/
def marshalCert (c : SSHCertData) : List Nat :=
  c.CertType :: c.ValidAfter :: c.ValidBefore :: c.ValidPrincipals.length ::
    (encStrs c.ValidPrincipals ++ c.Key.length :: c.Key)

/-- `ssh.PublicKey.Marshal`: wire bytes of a plain key or certificate.
The leading tag plays the role of the key-type identifier string. -/
def marshalKey : SSHKey → List Nat
  | .plain d => 0 :: d.length :: d
  | .cert c => 1 :: marshalCert c

/-- `ssh.ParsePublicKey`: parses wire bytes, failing on malformed input. -/
def parsePublicKey : List Nat → Option SSHKey
  | 0 :: len :: d => if d.length = len then some (.plain d) else none
  | 1 :: ct :: va :: vb :: np :: rest =>
    match decStrs np rest with
    | some (ps, kl :: k) =>
      if k.length = kl then some (.cert ⟨ct, ps, va, vb, k⟩) else none
    | _ => none
  | _ => none

/-! ## Wire codec (`api/ssh.go`, `SSHCertificate` / `SSHPublicKey`)

The JSON layer is modelled one level above raw bytes: a `MarshalJSON`
implementation produces a JSON value (Go: the bytes `null` or a quoted
string), and an `UnmarshalJSON` implementation consumes one.  A Go
`json.Unmarshal(data, &s)` into a `string` succeeds on a JSON string and on
`null` (leaving `s` at its zero value `""`), and fails on anything else. -/

/-- A JSON value as seen by the codec methods: `null`, a string, or any
other JSON value (number, object, ...). -/
inductive JSONVal where
  | null
  | str (s : String)
  | other
deriving DecidableEq, Repr

/-- Model of `json.Unmarshal(data, &s)` for `s : string`. -/
def jsonUnmarshalString : JSONVal → Except String String
  | .null => .ok ""
  | .str s => .ok s
  | .other => .error "json: cannot unmarshal value into Go value of type string"

/-- `api.SSHCertificate`: wraps a possibly-nil `*ssh.Certificate`. -/
structure SSHCertificate where
  Certificate : Option SSHCertData
deriving DecidableEq, Repr

/-- `SSHCertificate.MarshalJSON` (src/api/ssh.go:94-100): `null` for a nil
certificate, otherwise the quoted base64 of the OpenSSH wire bytes. -/
def SSHCertificate.MarshalJSON (c : SSHCertificate) : JSONVal :=
  match c.Certificate with
  | none => .null
  | some cert => .str (b64Encode (marshalKey (.cert cert)))

/-- `SSHCertificate.UnmarshalJSON` (src/api/ssh.go:104-127): decode the JSON
string, base64-decode it, parse as an OpenSSH public key, and require the
certificate variant. -/
def SSHCertificate.UnmarshalJSON (data : JSONVal) : Except String SSHCertificate :=
  match jsonUnmarshalString data with
  | .error e => .error ("error decoding certificate: " ++ e)
  | .ok s =>
    if s = "" then .ok ⟨none⟩
    else
      match b64Decode s with
      | none => .error "error decoding ssh certificate"
      | some certData =>
        match parsePublicKey certData with
        | none => .error "error parsing ssh certificate"
        | some (.plain _) => .error "error decoding ssh certificate: not an *ssh.Certificate"
        | some (.cert cert) => .ok ⟨some cert⟩

/-- `api.SSHPublicKey`: wraps a possibly-nil `ssh.PublicKey`. -/
structure SSHPublicKey where
  PublicKey : Option SSHKey
deriving DecidableEq, Repr

/-- `SSHPublicKey.MarshalJSON` (src/api/ssh.go:136-142). -/
def SSHPublicKey.MarshalJSON (p : SSHPublicKey) : JSONVal :=
  match p.PublicKey with
  | none => .null
  | some k => .str (b64Encode (marshalKey k))

/-- `SSHPublicKey.UnmarshalJSON` (src/api/ssh.go:147-166). -/
def SSHPublicKey.UnmarshalJSON (data : JSONVal) : Except String SSHPublicKey :=
  match jsonUnmarshalString data with
  | .error e => .error ("error decoding ssh public key: " ++ e)
  | .ok s =>
    if s = "" then .ok ⟨none⟩
    else
      match b64Decode s with
      | none => .error "error decoding ssh public key"
      | some keyData =>
        match parsePublicKey keyData with
        | none => .error "error parsing ssh public key"
        | some pub => .ok ⟨some pub⟩

/-! ## Context markers and sign options (`provisioner`, `authority` collaborators) -/

/-- `provisioner.Method` values used by this handler. -/
inductive Method where
  | SignMethod
  | SSHSignMethod
  | SSHRenewMethod
deriving DecidableEq, Repr

/-- A request context: the method marker and the skip-token-reuse marker,
the two context values this handler reads or writes. -/
structure Ctx where
  method : Option Method
  skipTokenReuse : Bool
deriving DecidableEq, Repr

/-- `provisioner.NewContextWithMethod`. -/
def NewContextWithMethod (ctx : Ctx) (m : Method) : Ctx :=
  { ctx with method := some m }

/-- `authority.NewContextWithSkipTokenReuse`. -/
def NewContextWithSkipTokenReuse (ctx : Ctx) : Ctx :=
  { ctx with skipTokenReuse := true }

/-- Go `int64(v)` for `v : uint64`: two's-complement reinterpretation. -/
def toInt64 (v : Nat) : Int :=
  if v % 2 ^ 64 < 2 ^ 63 then (v % 2 ^ 64 : Nat) else (v % 2 ^ 64 : Nat) - 2 ^ 64

/-- `provisioner.SignOption`: policy constraints returned by `Authorize`.
Options produced by the provisioner layer are opaque to this handler
(`policy`); the handler itself appends one `identityModifier` (its
`NotBefore`/`NotAfter` pair, as Unix seconds). -/
inductive SignOption where
  | policy (id : Nat)
  | identityMod (nb na : Int)
deriving DecidableEq, Repr

/-- `provisioner.SSHUserCert` ("user"). -/
def SSHUserCert : String := "user"

/-- `provisioner.SSHHostCert` ("host"). -/
def SSHHostCert : String := "host"

/-! ## Request contracts (`api/ssh.go`) -/

/-- `x509.CertificateRequest` as this handler uses it: `CheckSignature`
either succeeds or fails (`sigOK`), and the rest is opaque (`id`). -/
structure CertificateRequestData where
  sigOK : Bool
  id : Nat
deriving DecidableEq, Repr

/-- `api.SSHSignRequest` (src/api/ssh.go:35-45).  `TimeDuration` values are
opaque to the handler and modelled as `Nat` tags; nil-able Go values
(`AddUserPublicKey []byte`, the wrapped `*x509.CertificateRequest` of
`IdentityCSR`) are `Option`s. -/
structure SSHSignRequest where
  PublicKey : List Nat
  OTT : String
  CertType : String
  Principals : List String
  ValidAfter : Nat
  ValidBefore : Nat
  AddUserPublicKey : Option (List Nat)
  KeyID : String
  IdentityCSR : Option CertificateRequestData
deriving DecidableEq, Repr

/-- `SSHSignRequest.Validate` (src/api/ssh.go:48-65). -/
def SSHSignRequest.Validate (s : SSHSignRequest) : Option String :=
  if s.CertType ≠ "" ∧ s.CertType ≠ SSHUserCert ∧ s.CertType ≠ SSHHostCert then
    some ("unknown certType " ++ s.CertType)
  else if s.PublicKey.length = 0 then some "missing or empty publicKey"
  else if s.OTT.length = 0 then some "missing or empty ott"
  else
    match s.IdentityCSR with
    | some cr => if cr.sigOK then none else some "invalid identityCSR"
    | none => none

/-- `provisioner.SSHOptions` as assembled by the handler (src/api/ssh.go:277-283). -/
structure SSHOptions where
  CertType : String
  KeyID : String
  Principals : List String
  ValidBefore : Nat
  ValidAfter : Nat
deriving DecidableEq, Repr

/-- An X.509 certificate: the two lifetime fields the identity modifier
rewrites, and the remaining fields it must leave alone. -/
structure X509Cert where
  NotBefore : Int
  NotAfter : Int
  Subject : Nat
  SerialNumber : Nat
  PublicKey : Nat
  Extensions : List Nat
deriving DecidableEq, Repr

/-- `api.identityModifier` (src/api/ssh.go:487-490). -/
structure identityModifier where
  NotBefore : Int
  NotAfter : Int
deriving DecidableEq, Repr

/-- `identityModifier.Enforce` (src/api/ssh.go:492-496): overwrites the
`NotBefore`/`NotAfter` fields of the certificate and returns nil error.
Go mutates the certificate in place; the model returns the updated value. -/
def identityModifier.Enforce (m : identityModifier) (cert : X509Cert) :
    X509Cert × Option String :=
  ({ cert with NotBefore := m.NotBefore, NotAfter := m.NotAfter }, none)

/-- `api.SSHSignResponse` (src/api/ssh.go:68-72).  The identity chain is a
list of PEM leaf-first certificates; Go's nil slice (omitted field) is `[]`. -/
structure SSHSignResponse where
  Certificate : SSHCertificate
  AddUserCertificate : Option SSHCertificate
  IdentityCertificate : List X509Cert
deriving DecidableEq, Repr

/-! ## The signing orchestrator oracle and the `SSHSign` handler -/

/-- The calls `SSHSign` makes on its authority, with the context each one
received; recorded in order as the handler runs. -/
inductive AuthorityCall where
  | authorize (ctx : Ctx) (ott : String)
  | signSSH (ctx : Ctx)
  | signSSHAddUser (ctx : Ctx)
  | signX509 (signOpts : List SignOption)
deriving DecidableEq, Repr

/-- The authority as the handler sees it (the `SSHAuthority` interface plus
`Authorize` and `Sign`): each method is an oracle from its arguments to a
result or an error. -/
structure SSHAuthority where
  Authorize : Ctx → String → Except String (List SignOption)
  SignSSH : Ctx → SSHKey → SSHOptions → List SignOption → Except String SSHCertData
  SignSSHAddUser : Ctx → SSHKey → SSHCertData → Except String SSHCertData
  Sign : CertificateRequestData → List SignOption → Except String (List X509Cert)

/-- The observable outcome of a handler run: a JSON response with an HTTP
status, or an error response with its status. -/
inductive HandlerOutcome where
  | response (status : Nat) (resp : SSHSignResponse)
  | failure (status : Nat)
deriving DecidableEq, Repr

/-- `certChainToPEM`: PEM rendering keeps the chain, leaf first; the PEM
encoding itself is external and lossless, so the model keeps the
certificates. -/
def certChainToPEM (chain : List X509Cert) : List X509Cert := chain

/-- Parsing of the optional `addUserPublicKey` (src/api/ssh.go:268-275):
absent stays absent, present must parse. -/
def parseAddUserKey : Option (List Nat) → Except String (Option SSHKey)
  | none => .ok none
  | some bs =>
    match parsePublicKey bs with
    | none => .error "error parsing addUserPublicKey"
    | some k => .ok (some k)

/-- The add-user step (src/api/ssh.go:298-306): guarded by the three
preconditions; on the guard, a failing `SignSSHAddUser` is an error. -/
def sshSignAddUserStage (A : SSHAuthority) (ctx : Ctx) (addUserPublicKey : Option SSHKey)
    (cert : SSHCertData) :
    Except String (Option SSHCertificate) × List AuthorityCall :=
  match addUserPublicKey with
  | some k =>
    if cert.CertType = UserCert ∧ cert.ValidPrincipals.length = 1 then
      match A.SignSSHAddUser ctx k cert with
      | .error e => (.error e, [.signSSHAddUser ctx])
      | .ok addUserCert => (.ok (some ⟨some addUserCert⟩), [.signSSHAddUser ctx])
    else (.ok none, [])
  | none => (.ok none, [])

/-- The identity-certificate step (src/api/ssh.go:308-331): on a present
CSR, re-authorize under a fresh context derived from the request context
with the skip-token-reuse marker and the `SignMethod` marker, append the
identity lifetime modifier as the last sign option, and sign.  The
`Except` error carries the HTTP status of the failure. -/
def sshSignIdentityStage (A : SSHAuthority) (rctx : Ctx) (body : SSHSignRequest)
    (cert : SSHCertData) :
    Except Nat (List X509Cert) × List AuthorityCall :=
  match body.IdentityCSR with
  | none => (.ok [], [])
  | some cr =>
    let ctx := NewContextWithMethod (NewContextWithSkipTokenReuse rctx) .SignMethod
    match A.Authorize ctx body.OTT with
    | .error _ => (.error 401, [.authorize ctx body.OTT])
    | .ok signOpts =>
      let signOpts' := signOpts ++
        [SignOption.identityMod (toInt64 cert.ValidAfter) (toInt64 cert.ValidBefore)]
      match A.Sign cr signOpts' with
      | .error _ => (.error 403, [.authorize ctx body.OTT, .signX509 signOpts'])
      | .ok certChain =>
        (.ok (certChainToPEM certChain), [.authorize ctx body.OTT, .signX509 signOpts'])

/-- `caHandler.SSHSign` (src/api/ssh.go:249-338), from the point where the
body has been read (`ReadJSON` is transport glue): validation, public-key
parsing, authorization, SSH signing, the conditional add-user and identity
steps, and the 201 response.  `rctx` is `r.Context()`.  The second
component records the authority calls in order. -/
def SSHSign (A : SSHAuthority) (rctx : Ctx) (body : SSHSignRequest) :
    HandlerOutcome × List AuthorityCall :=
  match body.Validate with
  | some _ => (.failure 400, [])
  | none =>
    match parsePublicKey body.PublicKey with
    | none => (.failure 400, [])
    | some publicKey =>
      match parseAddUserKey body.AddUserPublicKey with
      | .error _ => (.failure 400, [])
      | .ok addUserPublicKey =>
        let opts : SSHOptions :=
          { CertType := body.CertType, KeyID := body.KeyID,
            Principals := body.Principals,
            ValidBefore := body.ValidBefore, ValidAfter := body.ValidAfter }
        let ctx := NewContextWithMethod rctx .SSHSignMethod
        match A.Authorize ctx body.OTT with
        | .error _ => (.failure 401, [.authorize ctx body.OTT])
        | .ok signOpts =>
          match A.SignSSH ctx publicKey opts signOpts with
          | .error _ => (.failure 403, [.authorize ctx body.OTT, .signSSH ctx])
          | .ok cert =>
            let pre : List AuthorityCall := [.authorize ctx body.OTT, .signSSH ctx]
            match sshSignAddUserStage A ctx addUserPublicKey cert with
            | (.error _, t) => (.failure 403, pre ++ t)
            | (.ok addUserCertificate, t) =>
              match sshSignIdentityStage A rctx body cert with
              | (.error st, t') => (.failure st, pre ++ t ++ t')
              | (.ok identityCertificate, t') =>
                (.response 201
                  { Certificate := ⟨some cert⟩,
                    AddUserCertificate := addUserCertificate,
                    IdentityCertificate := identityCertificate },
                 pre ++ t ++ t')

/-! ## Roots and federation handlers (`api/ssh.go`) -/

/-- `authority.SSHKeys`: the user and host CA public-key bundles. -/
structure SSHKeys where
  UserKeys : List SSHKey
  HostKeys : List SSHKey
deriving DecidableEq, Repr

/-- `api.SSHRootsResponse` (src/api/ssh.go:76-79). -/
structure SSHRootsResponse where
  UserKeys : List SSHPublicKey
  HostKeys : List SSHPublicKey
deriving DecidableEq, Repr

/-- Outcome of a roots/federation handler run. -/
inductive RootsOutcome where
  | response (status : Nat) (resp : SSHRootsResponse)
  | failure (status : Nat)
deriving DecidableEq, Repr

/-- Shared body of `SSHRoots` and `SSHFederation` given the authority
result: internal-server error on failure, not-found when both bundles are
empty, otherwise the 200 response listing host keys then user keys. -/
def sshRootsBody (keysRes : Except String SSHKeys) : RootsOutcome :=
  match keysRes with
  | .error _ => .failure 500
  | .ok keys =>
    if keys.HostKeys.length = 0 ∧ keys.UserKeys.length = 0 then .failure 404
    else
      .response 200
        { UserKeys := keys.UserKeys.map fun k => ⟨some k⟩,
          HostKeys := keys.HostKeys.map fun k => ⟨some k⟩ }

/-- `caHandler.SSHRoots` (src/api/ssh.go:342-363), from the
`GetSSHRoots` result. -/
def SSHRoots (getSSHRootsRes : Except String SSHKeys) : RootsOutcome :=
  sshRootsBody getSSHRootsRes

/-- `caHandler.SSHFederation` (src/api/ssh.go:367-388), from the
`GetSSHFederation` result. -/
def SSHFederation (getSSHFederationRes : Except String SSHKeys) : RootsOutcome :=
  sshRootsBody getSSHFederationRes

/-! ## Authority builder (`authority/options.go`)

Handles, callbacks and the KMS are opaque to the option protocol: the
mutators only store them.  They are modelled as tagged values so that
authorities can be compared. -/

/-- An `ssh.Signer` as produced by `ssh.NewSignerFromSigner`: the only
method used is `PublicKey()`. -/
structure SSHSigner where
  pub : SSHKey
deriving DecidableEq, Repr

/-- A `crypto.Signer`: `ssh.NewSignerFromSigner` either wraps it into an
SSH signer exposing its public key, or fails (e.g. unsupported key type). -/
structure CryptoSigner where
  pub : SSHKey
  supported : Bool
deriving DecidableEq, Repr

/-- Model of `ssh.NewSignerFromSigner`. -/
def NewSignerFromSigner (s : CryptoSigner) : Except String SSHSigner :=
  if s.supported then .ok ⟨s.pub⟩ else .error "unsupported key type"

/-- `authority.Authority`: the fields touched by the option protocol. -/
structure Authority where
  db : Option Nat
  getIdentityFunc : Option Nat
  sshBastionFunc : Option Nat
  sshGetHostsFunc : Option Nat
  sshCheckHostFunc : Option Nat
  keyManager : Option Nat
  x509Issuer : Option X509Cert
  x509Signer : Option Nat
  sshCAUserCertSignKey : Option SSHSigner
  sshCAHostCertSignKey : Option SSHSigner
  sshCAUserCerts : List SSHKey
  sshCAUserFederatedCerts : List SSHKey
  sshCAHostCerts : List SSHKey
  sshCAHostFederatedCerts : List SSHKey
  rootX509Certs : List X509Cert
  federatedX509Certs : List X509Cert
deriving DecidableEq, Repr

/-- `authority.Option` (src/authority/options.go:18): a configuration
mutator. -/
def AuthorityOption : Type := Authority → Except String Authority

/-- `WithDatabase` (src/authority/options.go:22-27). -/
def WithDatabase (db : Nat) : AuthorityOption :=
  fun a => .ok { a with db := some db }

/-- `WithGetIdentityFunc` (src/authority/options.go:31-36). -/
def WithGetIdentityFunc (fn : Nat) : AuthorityOption :=
  fun a => .ok { a with getIdentityFunc := some fn }

/-- `WithSSHBastionFunc` (src/authority/options.go:40-45). -/
def WithSSHBastionFunc (fn : Nat) : AuthorityOption :=
  fun a => .ok { a with sshBastionFunc := some fn }

/-- `WithSSHGetHosts` (src/authority/options.go:49-54). -/
def WithSSHGetHosts (fn : Nat) : AuthorityOption :=
  fun a => .ok { a with sshGetHostsFunc := some fn }

/-- `WithSSHCheckHost` (src/authority/options.go:59-64). -/
def WithSSHCheckHost (fn : Nat) : AuthorityOption :=
  fun a => .ok { a with sshCheckHostFunc := some fn }

/-- `WithKeyManager` (src/authority/options.go:68-73). -/
def WithKeyManager (k : Nat) : AuthorityOption :=
  fun a => .ok { a with keyManager := some k }

/-- `WithX509Signer` (src/authority/options.go:76-82). -/
def WithX509Signer (crt : X509Cert) (s : Nat) : AuthorityOption :=
  fun a => .ok { a with x509Issuer := some crt, x509Signer := some s }

/-- `WithSSHUserSigner` (src/authority/options.go:85-98): wrap the signer,
set it as the user signing key and append its public key to the local and
federated user CA lists. -/
def WithSSHUserSigner (s : CryptoSigner) : AuthorityOption :=
  fun a =>
    match NewSignerFromSigner s with
    | .error e => .error ("error creating ssh user signer: " ++ e)
    | .ok signer =>
      .ok { a with
        sshCAUserCertSignKey := some signer,
        sshCAUserCerts := a.sshCAUserCerts ++ [signer.pub],
        sshCAUserFederatedCerts := a.sshCAUserFederatedCerts ++ [signer.pub] }

/-- `WithSSHHostSigner` (src/authority/options.go:101-114). -/
def WithSSHHostSigner (s : CryptoSigner) : AuthorityOption :=
  fun a =>
    match NewSignerFromSigner s with
    | .error e => .error ("error creating ssh host signer: " ++ e)
    | .ok signer =>
      .ok { a with
        sshCAHostCertSignKey := some signer,
        sshCAHostCerts := a.sshCAHostCerts ++ [signer.pub],
        sshCAHostFederatedCerts := a.sshCAHostFederatedCerts ++ [signer.pub] }

/-- `WithX509RootCerts` (src/authority/options.go:119-124): replaces the
whole root list. -/
def WithX509RootCerts (rootCerts : List X509Cert) : AuthorityOption :=
  fun a => .ok { a with rootX509Certs := rootCerts }

/-- `WithX509FederatedCerts` (src/authority/options.go:129-134). -/
def WithX509FederatedCerts (certs : List X509Cert) : AuthorityOption :=
  fun a => .ok { a with federatedX509Certs := certs }

/-! ## PEM bundle parsing (`authority/options.go`) -/

/-- A PEM block as returned by `pem.Decode`: type, headers, DER payload.
`pem.Decode` is external; a byte bundle is modelled as the sequence of
blocks that repeated decoding yields.  (Go field `Type` is spelled
`BlockType` because `Type` is a Lean keyword.) -/
structure PEMBlock where
  BlockType : String
  Headers : List (String × String)
  Bytes : List Nat
deriving DecidableEq, Repr

/-- `readCertificateBundle` (src/authority/options.go:163-183),
parameterized by the external `x509.ParseCertificate`: skip blocks that are
not of type `"CERTIFICATE"` or that carry headers, parse the rest in order,
abort on the first parse error. -/
def readCertificateBundle (parseCertificate : List Nat → Except String X509Cert) :
    List PEMBlock → Except String (List X509Cert)
  | [] => .ok []
  | block :: pemCerts =>
    if block.BlockType ≠ "CERTIFICATE" ∨ block.Headers.length ≠ 0 then
      readCertificateBundle parseCertificate pemCerts
    else
      match parseCertificate block.Bytes with
      | .error e => .error e
      | .ok cert =>
        match readCertificateBundle parseCertificate pemCerts with
        | .error e => .error e
        | .ok certs => .ok (cert :: certs)

/-- `WithX509RootBundle` (src/authority/options.go:138-147). -/
def WithX509RootBundle (parseCertificate : List Nat → Except String X509Cert)
    (pemCerts : List PEMBlock) : AuthorityOption :=
  fun a =>
    match readCertificateBundle parseCertificate pemCerts with
    | .error e => .error e
    | .ok certs => .ok { a with rootX509Certs := certs }

/-- `WithX509FederatedBundle` (src/authority/options.go:152-161). -/
def WithX509FederatedBundle (parseCertificate : List Nat → Except String X509Cert)
    (pemCerts : List PEMBlock) : AuthorityOption :=
  fun a =>
    match readCertificateBundle parseCertificate pemCerts with
    | .error e => .error e
    | .ok certs => .ok { a with federatedX509Certs := certs }

/-- Sequential application of options, as the authority constructor does:
any failure aborts. -/
def applyOptions : List AuthorityOption → Authority → Except String Authority
  | [], a => .ok a
  | o :: os, a =>
    match o a with
    | .error e => .error e
    | .ok a' => applyOptions os a'

/-- A block is accepted by `readCertificateBundle` iff its type is
`"CERTIFICATE"` and it has no headers. -/
def acceptedBlock (b : PEMBlock) : Bool :=
  b.BlockType = "CERTIFICATE" && b.Headers.length = 0

/-- Whether an authority call is an `Authorize` call. -/
def AuthorityCall.isAuthorize : AuthorityCall → Bool
  | .authorize _ _ => true
  | _ => false

/-! ## Sample values (used to instantiate theorems with hypotheses) -/

/-- A user certificate with a single principal. -/
def sampleCert : SSHCertData :=
  { CertType := UserCert, ValidPrincipals := ["alice"],
    ValidAfter := 1000, ValidBefore := 2000, Key := [5] }

/-- An X.509 certificate. -/
def sampleX509 : X509Cert :=
  { NotBefore := 0, NotAfter := 0, Subject := 9, SerialNumber := 10,
    PublicKey := 11, Extensions := [12] }

/-- An authority whose calls all succeed, issuing `sampleCert`. -/
def sampleAuthority : SSHAuthority :=
  { Authorize := fun _ _ => .ok [.policy 7],
    SignSSH := fun _ _ _ _ => .ok sampleCert,
    SignSSHAddUser := fun _ _ _ => .ok sampleCert,
    Sign := fun _ _ => .ok [sampleX509] }

/-- An authority whose `SignSSHAddUser` fails. -/
def sampleAuthorityAddUserFail : SSHAuthority :=
  { sampleAuthority with SignSSHAddUser := fun _ _ _ => .error "add-user denied" }

/-- An authority that rejects a token presented under the skip-token-reuse
marker (so the second authorize call of a request fails). -/
def sampleAuthorityReuseFail : SSHAuthority :=
  { sampleAuthority with
    Authorize := fun ctx _ =>
      if ctx.skipTokenReuse then .error "token already used" else .ok [.policy 7] }

/-- An empty request context (`r.Context()`). -/
def sampleCtx : Ctx := { method := none, skipTokenReuse := false }

/-- A plain sign request for a user certificate. -/
def sampleBody : SSHSignRequest :=
  { PublicKey := marshalKey (.plain [3]), OTT := "TOKEN-A", CertType := "user",
    Principals := ["alice"], ValidAfter := 0, ValidBefore := 0,
    AddUserPublicKey := none, KeyID := "alice@example", IdentityCSR := none }

/-- `sampleBody` plus an add-user public key. -/
def sampleBodyAddUser : SSHSignRequest :=
  { sampleBody with AddUserPublicKey := some (marshalKey (.plain [4])) }

/-- `sampleBody` plus an identity CSR with a valid self-signature. -/
def sampleBodyCSR : SSHSignRequest :=
  { sampleBody with IdentityCSR := some { sigOK := true, id := 21 } }

/-- An authority with no fields set. -/
def emptyAuthority : Authority :=
  { db := none, getIdentityFunc := none, sshBastionFunc := none,
    sshGetHostsFunc := none, sshCheckHostFunc := none, keyManager := none,
    x509Issuer := none, x509Signer := none, sshCAUserCertSignKey := none,
    sshCAHostCertSignKey := none, sshCAUserCerts := [], sshCAUserFederatedCerts := [],
    sshCAHostCerts := [], sshCAHostFederatedCerts := [], rootX509Certs := [],
    federatedX509Certs := [] }

theorem b64Char_val (d : Nat) (hd : d < 64) : b64Val (b64Char d) = some d := by
  revert hd; revert d; decide

theorem b64Char_ne_eq (d : Nat) : b64Char d ≠ '=' := by
  by_cases h : d < 64
  · revert h; revert d; decide
  · unfold b64Char
    rw [List.getD_eq_default]
    · decide
    · have : b64Alphabet.length = 64 := by decide
      omega

theorem natToB64_ne_nil (n : Nat) : natToB64 n ≠ [] := by
  unfold natToB64
  split <;> simp

theorem b64ToNat_natToB64 (n : Nat) : b64ToNat (natToB64 n) = some n := by
  induction n using Nat.strong_induction_on with
  | _ n ih =>
    rw [natToB64]
    by_cases h : n < 64
    · simp only [if_pos h, b64ToNat, b64Char_val n h]
    · simp only [if_neg h]
      obtain ⟨c, cs, hcs⟩ := List.exists_cons_of_ne_nil (natToB64_ne_nil (n / 64))
      have ihdiv := ih (n / 64) (Nat.div_lt_self (by omega) (by omega))
      rw [hcs] at ihdiv ⊢
      simp only [b64ToNat, ihdiv, b64Char_val (n % 64) (Nat.mod_lt n (by omega)),
        Option.bind_some, Option.map_some, Option.bind, Option.map]
      congr 1
      omega

theorem eq_not_mem_natToB64 (n : Nat) : '=' ∉ natToB64 n := by
  induction n using Nat.strong_induction_on with
  | _ n ih =>
    rw [natToB64]
    by_cases h : n < 64
    · simp only [if_pos h, List.mem_singleton]
      exact fun he => b64Char_ne_eq n he.symm
    · simp only [if_neg h, List.mem_cons, not_or]
      refine ⟨fun he => b64Char_ne_eq (n % 64) he.symm, ?_⟩
      exact ih (n / 64) (Nat.div_lt_self (by omega) (by omega))

theorem b64Chunks_append_of_not_mem (digits rest : List Char)
    (h : '=' ∉ digits) :
    b64Chunks (digits ++ rest) =
      (digits ++ (b64Chunks rest).1, (b64Chunks rest).2) := by
  induction digits with
  | nil => simp
  | cons c cs ihc =>
    simp only [List.mem_cons, not_or] at h
    simp only [List.cons_append, b64Chunks, ihc h.2]
    rw [if_neg (fun hc => h.1 hc.symm)]
    simp only [List.append_eq, ihc h.2]

theorem b64Chunks_of_not_mem (digits : List Char) (h : '=' ∉ digits) :
    b64Chunks digits = (digits, []) := by
  have := b64Chunks_append_of_not_mem digits [] h
  simpa [b64Chunks] using this

theorem b64Chunks_b64EncodeChars (l : List Nat) :
    l ≠ [] →
      (b64Chunks (b64EncodeChars l)).1 :: (b64Chunks (b64EncodeChars l)).2 =
        l.map natToB64 := by
  induction l with
  | nil => intro h; exact absurd rfl h
  | cons n rest ihr =>
    intro _
    match rest with
    | [] => simp [b64EncodeChars, b64Chunks_of_not_mem _ (eq_not_mem_natToB64 n)]
    | m :: rest' =>
      have hr := ihr (by simp)
      simp only [b64EncodeChars, List.map_cons] at hr ⊢
      rw [b64Chunks_append_of_not_mem _ _ (eq_not_mem_natToB64 n)]
      simp only [b64Chunks, if_pos rfl]
      simpa using hr

theorem b64EncodeChars_ne_nil (l : List Nat) (h : l ≠ []) : b64EncodeChars l ≠ [] := by
  match l with
  | [] => exact absurd rfl h
  | [n] => simpa [b64EncodeChars] using natToB64_ne_nil n
  | n :: m :: rest =>
    simp only [b64EncodeChars]
    intro hc
    exact natToB64_ne_nil n (List.append_eq_nil.mp hc).1

/-- The modelled base64 decoder inverts the modelled encoder. -/
theorem b64Decode_b64Encode (l : List Nat) : b64Decode (b64Encode l) = some l := by
  match hl : l with
  | [] => rfl
  | n :: rest =>
    rw [b64Encode, b64Decode]
    obtain ⟨c, cs, hcs⟩ :=
      List.exists_cons_of_ne_nil (b64EncodeChars_ne_nil (n :: rest) (by simp))
    simp only [String.mk, hcs]
    rw [← hcs]
    have hchunks := b64Chunks_b64EncodeChars (n :: rest) (by simp)
    simp only [hchunks]
    clear hchunks hcs
    induction (n :: rest) with
    | nil => rfl
    | cons a as iha =>
      simp only [List.map_cons, List.mapM_cons, b64ToNat_natToB64, iha]
      rfl

theorem decStrs_encStrs (ps : List String) (rest : List Nat) :
    decStrs ps.length (encStrs ps ++ rest) = some (ps, rest) := by
  induction ps with
  | nil => simp [decStrs, encStrs]
  | cons s ss ihs =>
    have harr : encStrs (s :: ss) ++ rest
        = s.data.length :: (s.data.map Char.toNat ++ (encStrs ss ++ rest)) := by
      simp [encStrs, encStr, List.append_assoc]
    rw [List.length_cons, harr]
    simp only [decStrs]
    have ht := List.take_left (s.data.map Char.toNat) (encStrs ss ++ rest)
    rw [List.length_map] at ht
    have hd := List.drop_left (s.data.map Char.toNat) (encStrs ss ++ rest)
    rw [List.length_map] at hd
    rw [ht, hd, ihs]
    have hmk : String.mk (s.data.map (Char.ofNat ∘ Char.toNat)) = s := by
      have hco : (Char.ofNat ∘ Char.toNat) = id := funext fun c => Char.ofNat_toNat c
      rw [hco, List.map_id]
    simp [List.map_map, hmk]

/-- Wire round-trip for the modelled OpenSSH key codec. -/
theorem parsePublicKey_marshalKey (k : SSHKey) :
    parsePublicKey (marshalKey k) = some k := by
  match k with
  | .plain d => simp [marshalKey, parsePublicKey]
  | .cert c =>
    simp only [marshalKey, marshalCert, parsePublicKey, decStrs_encStrs]
    simp

theorem marshalKey_ne_nil (k : SSHKey) : marshalKey k ≠ [] := by
  cases k <;> simp [marshalKey, marshalCert]

theorem b64Encode_marshalKey_ne_empty (k : SSHKey) : b64Encode (marshalKey k) ≠ "" := by
  intro h
  have : (b64Encode (marshalKey k)).data = [] := by rw [h]
  rw [b64Encode] at this
  exact b64EncodeChars_ne_nil (marshalKey k) (marshalKey_ne_nil k) this

/-! ## Claim theorems: authority builder -/

/-- C3: For every input, `readCertificateBundle` returns, in input order,
exactly one parsed certificate per PEM block whose type is `"CERTIFICATE"`
and whose header map is empty; blocks of other types or with non-empty
headers are silently skipped; and any accepted block whose DER payload
fails X.509 parsing aborts the whole parse with an error (no partial list):
the function equals filtering the accepted blocks and monadically parsing
them in order. -/
theorem readCertificateBundle_filter_mapM
    (parseCertificate : List Nat → Except String X509Cert) (blocks : List PEMBlock) :
    readCertificateBundle parseCertificate blocks =
      (blocks.filter acceptedBlock).mapM fun b => parseCertificate b.Bytes := by
  induction blocks with
  | nil => rfl
  | cons b bs ih =>
    rw [readCertificateBundle]
    by_cases hb : acceptedBlock b
    · have hcond : ¬(b.BlockType ≠ "CERTIFICATE" ∨ b.Headers.length ≠ 0) := by
        simp only [acceptedBlock, Bool.and_eq_true, decide_eq_true_eq] at hb
        simp [hb.1, hb.2]
      rw [if_neg hcond, List.filter_cons_of_pos hb, List.mapM_cons]
      simp only [ih]
      cases hp : parseCertificate b.Bytes with
      | error e => simp only [hp]; rfl
      | ok cert =>
        simp only [hp]
        cases hm : List.mapM (fun b => parseCertificate b.Bytes) (bs.filter acceptedBlock) with
        | error e => simp only [hm]; rfl
        | ok certs => simp only [hm]; rfl
    · have hcond : b.BlockType ≠ "CERTIFICATE" ∨ b.Headers.length ≠ 0 := by
        simp only [acceptedBlock, Bool.and_eq_true, decide_eq_true_eq] at hb
        tauto
      rw [if_pos hcond, List.filter_cons_of_neg (by simpa using hb), ih]

theorem applyOptions_user_signers (ss : List CryptoSigner)
    (hss : ∀ s ∈ ss, s.supported = true) (a : Authority) :
    ∃ a', applyOptions (ss.map WithSSHUserSigner) a = .ok a' ∧
      a'.sshCAUserCerts = a.sshCAUserCerts ++ ss.map (·.pub) ∧
      a'.sshCAUserFederatedCerts = a.sshCAUserFederatedCerts ++ ss.map (·.pub) := by
  induction ss generalizing a with
  | nil => exact ⟨a, rfl, by simp, by simp⟩
  | cons s ss ih =>
    have hs : s.supported = true := hss s (by simp)
    obtain ⟨a', ha', hu, hf⟩ := ih (fun x hx => hss x (by simp [hx])) _
    refine ⟨a', ?_, ?_, ?_⟩
    · simp only [List.map_cons, applyOptions, WithSSHUserSigner, NewSignerFromSigner, hs,
        if_pos rfl]
      exact ha'
    · rw [hu]; simp
    · rw [hf]; simp

theorem applyOptions_host_signers (ss : List CryptoSigner)
    (hss : ∀ s ∈ ss, s.supported = true) (a : Authority) :
    ∃ a', applyOptions (ss.map WithSSHHostSigner) a = .ok a' ∧
      a'.sshCAHostCerts = a.sshCAHostCerts ++ ss.map (·.pub) ∧
      a'.sshCAHostFederatedCerts = a.sshCAHostFederatedCerts ++ ss.map (·.pub) := by
  induction ss generalizing a with
  | nil => exact ⟨a, rfl, by simp, by simp⟩
  | cons s ss ih =>
    have hs : s.supported = true := hss s (by simp)
    obtain ⟨a', ha', hu, hf⟩ := ih (fun x hx => hss x (by simp [hx])) _
    refine ⟨a', ?_, ?_, ?_⟩
    · simp only [List.map_cons, applyOptions, WithSSHHostSigner, NewSignerFromSigner, hs,
        if_pos rfl]
      exact ha'
    · rw [hu]; simp
    · rw [hf]; simp

/-- C7: a successful `WithSSHUserSigner` (resp. `WithSSHHostSigner`) sets
the user (resp. host) signing key and appends the signer's public key to
the local and the federated list; applying `n` such mutators in sequence
leaves each list longer by `n`, in application order. -/
theorem with_ssh_signer_appends :
    (∀ (s : CryptoSigner) (a : Authority) (signer : SSHSigner),
      NewSignerFromSigner s = .ok signer →
      WithSSHUserSigner s a = .ok { a with
        sshCAUserCertSignKey := some signer,
        sshCAUserCerts := a.sshCAUserCerts ++ [signer.pub],
        sshCAUserFederatedCerts := a.sshCAUserFederatedCerts ++ [signer.pub] }) ∧
    (∀ (s : CryptoSigner) (a : Authority) (signer : SSHSigner),
      NewSignerFromSigner s = .ok signer →
      WithSSHHostSigner s a = .ok { a with
        sshCAHostCertSignKey := some signer,
        sshCAHostCerts := a.sshCAHostCerts ++ [signer.pub],
        sshCAHostFederatedCerts := a.sshCAHostFederatedCerts ++ [signer.pub] }) ∧
    (∀ (ss : List CryptoSigner), (∀ s ∈ ss, s.supported = true) → ∀ (a a' : Authority),
      applyOptions (ss.map WithSSHUserSigner) a = .ok a' →
      a'.sshCAUserCerts = a.sshCAUserCerts ++ ss.map (·.pub) ∧
      a'.sshCAUserFederatedCerts = a.sshCAUserFederatedCerts ++ ss.map (·.pub) ∧
      a'.sshCAUserCerts.length = a.sshCAUserCerts.length + ss.length ∧
      a'.sshCAUserFederatedCerts.length = a.sshCAUserFederatedCerts.length + ss.length) ∧
    (∀ (ss : List CryptoSigner), (∀ s ∈ ss, s.supported = true) → ∀ (a a' : Authority),
      applyOptions (ss.map WithSSHHostSigner) a = .ok a' →
      a'.sshCAHostCerts = a.sshCAHostCerts ++ ss.map (·.pub) ∧
      a'.sshCAHostFederatedCerts = a.sshCAHostFederatedCerts ++ ss.map (·.pub) ∧
      a'.sshCAHostCerts.length = a.sshCAHostCerts.length + ss.length ∧
      a'.sshCAHostFederatedCerts.length = a.sshCAHostFederatedCerts.length + ss.length) := by
  refine ⟨?_, ?_, ?_, ?_⟩
  · intro s a signer hs
    simp only [WithSSHUserSigner, hs]
  · intro s a signer hs
    simp only [WithSSHHostSigner, hs]
  · intro ss hss a a' h
    obtain ⟨a'', ha'', hu, hf⟩ := applyOptions_user_signers ss hss a
    rw [h] at ha''
    obtain rfl : a' = a'' := by injection ha''
    exact ⟨hu, hf, by simp [hu], by simp [hf]⟩
  · intro ss hss a a' h
    obtain ⟨a'', ha'', hu, hf⟩ := applyOptions_host_signers ss hss a
    rw [h] at ha''
    obtain rfl : a' = a'' := by injection ha''
    exact ⟨hu, hf, by simp [hu], by simp [hf]⟩

/-- Witness for C7: a supported signer applied to the empty authority. -/
theorem with_ssh_signer_appends_witness :
    NewSignerFromSigner ⟨.plain [1], true⟩ = .ok ⟨.plain [1]⟩ ∧
    WithSSHUserSigner ⟨.plain [1], true⟩ emptyAuthority =
      Except.ok { emptyAuthority with
                  sshCAUserCertSignKey := some ⟨.plain [1]⟩,
                  sshCAUserCerts := [.plain [1]],
                  sshCAUserFederatedCerts := [.plain [1]] } ∧
    WithSSHHostSigner ⟨.plain [2], true⟩ emptyAuthority =
      Except.ok { emptyAuthority with
                  sshCAHostCertSignKey := some ⟨.plain [2]⟩,
                  sshCAHostCerts := [.plain [2]],
                  sshCAHostFederatedCerts := [.plain [2]] } :=
  ⟨rfl, with_ssh_signer_appends.1 ⟨.plain [1], true⟩ emptyAuthority ⟨.plain [1]⟩ rfl,
   with_ssh_signer_appends.2.1 ⟨.plain [2], true⟩ emptyAuthority ⟨.plain [2]⟩ rfl⟩

/-- C9: the replace-style mutators `WithX509RootCerts`,
`WithX509FederatedCerts`, `WithX509RootBundle` and `WithX509FederatedBundle`
are idempotent: applying the same mutator to its own successful result
changes nothing, because each application replaces the whole list. -/
theorem replace_mutators_idempotent :
    (∀ (certs : List X509Cert) (a : Authority),
      (WithX509RootCerts certs a).bind (WithX509RootCerts certs) =
        WithX509RootCerts certs a) ∧
    (∀ (certs : List X509Cert) (a : Authority),
      (WithX509FederatedCerts certs a).bind (WithX509FederatedCerts certs) =
        WithX509FederatedCerts certs a) ∧
    (∀ (parseCertificate : List Nat → Except String X509Cert)
        (pemCerts : List PEMBlock) (a : Authority),
      (WithX509RootBundle parseCertificate pemCerts a).bind
          (WithX509RootBundle parseCertificate pemCerts) =
        WithX509RootBundle parseCertificate pemCerts a) ∧
    (∀ (parseCertificate : List Nat → Except String X509Cert)
        (pemCerts : List PEMBlock) (a : Authority),
      (WithX509FederatedBundle parseCertificate pemCerts a).bind
          (WithX509FederatedBundle parseCertificate pemCerts) =
        WithX509FederatedBundle parseCertificate pemCerts a) := by
  refine ⟨fun certs a => rfl, fun certs a => rfl, ?_, ?_⟩
  · intro p pem a
    simp only [WithX509RootBundle]
    cases h : readCertificateBundle p pem with
    | error e => rfl
    | ok certs => simp only [Except.bind, h, WithX509RootBundle]
  · intro p pem a
    simp only [WithX509FederatedBundle]
    cases h : readCertificateBundle p pem with
    | error e => rfl
    | ok certs => simp only [Except.bind, h, WithX509FederatedBundle]

/-- C10: the mutators that only store a value never fail: `WithDatabase`,
`WithGetIdentityFunc`, `WithSSHBastionFunc`, `WithSSHGetHosts`,
`WithSSHCheckHost`, `WithKeyManager`, `WithX509Signer`, `WithX509RootCerts`
and `WithX509FederatedCerts` return a nil error on every input and every
authority; the four mutators that can abort a build are the SSH signer
wrappers (on an unsupported signer) and the PEM bundle mutators (on a
failing certificate parse). -/
theorem storage_mutators_never_fail :
    (∀ d a, ∃ a', WithDatabase d a = .ok a') ∧
    (∀ fn a, ∃ a', WithGetIdentityFunc fn a = .ok a') ∧
    (∀ fn a, ∃ a', WithSSHBastionFunc fn a = .ok a') ∧
    (∀ fn a, ∃ a', WithSSHGetHosts fn a = .ok a') ∧
    (∀ fn a, ∃ a', WithSSHCheckHost fn a = .ok a') ∧
    (∀ k a, ∃ a', WithKeyManager k a = .ok a') ∧
    (∀ crt s a, ∃ a', WithX509Signer crt s a = .ok a') ∧
    (∀ certs a, ∃ a', WithX509RootCerts certs a = .ok a') ∧
    (∀ certs a, ∃ a', WithX509FederatedCerts certs a = .ok a') ∧
    (∃ s a e, WithSSHUserSigner s a = .error e) ∧
    (∃ s a e, WithSSHHostSigner s a = .error e) ∧
    (∃ p pem a e, WithX509RootBundle p pem a = .error e) ∧
    (∃ p pem a e, WithX509FederatedBundle p pem a = .error e) := by
  refine ⟨fun d a => ⟨_, rfl⟩, fun fn a => ⟨_, rfl⟩, fun fn a => ⟨_, rfl⟩,
    fun fn a => ⟨_, rfl⟩, fun fn a => ⟨_, rfl⟩, fun k a => ⟨_, rfl⟩,
    fun crt s a => ⟨_, rfl⟩, fun certs a => ⟨_, rfl⟩, fun certs a => ⟨_, rfl⟩,
    ⟨⟨.plain [1], false⟩, emptyAuthority, _, rfl⟩,
    ⟨⟨.plain [1], false⟩, emptyAuthority, _, rfl⟩,
    ⟨fun _ => .error "x509: malformed certificate", [⟨"CERTIFICATE", [], []⟩],
      emptyAuthority, _, rfl⟩,
    ⟨fun _ => .error "x509: malformed certificate", [⟨"CERTIFICATE", [], []⟩],
      emptyAuthority, _, rfl⟩⟩

/-! ## Claim theorems: roots/federation handlers -/

/-- C8: when the authority call succeeds, the roots handler and the
federation handler return not-found exactly when both key lists are empty,
and otherwise return a 200 response listing every host key and every user
key in their original order. -/
theorem sshRoots_federation_spec :
    ∀ keys : SSHKeys,
      (SSHRoots (.ok keys) = .failure 404 ↔ keys.UserKeys = [] ∧ keys.HostKeys = []) ∧
      (SSHFederation (.ok keys) = .failure 404 ↔
        keys.UserKeys = [] ∧ keys.HostKeys = []) ∧
      (keys.UserKeys ≠ [] ∨ keys.HostKeys ≠ [] →
        SSHRoots (.ok keys) = .response 200
          { UserKeys := keys.UserKeys.map fun k => ⟨some k⟩,
            HostKeys := keys.HostKeys.map fun k => ⟨some k⟩ } ∧
        SSHFederation (.ok keys) = .response 200
          { UserKeys := keys.UserKeys.map fun k => ⟨some k⟩,
            HostKeys := keys.HostKeys.map fun k => ⟨some k⟩ }) := by
  intro keys
  refine ⟨?_, ?_, ?_⟩
  · simp only [SSHRoots, sshRootsBody]
    constructor
    · intro h
      by_cases hc : keys.HostKeys.length = 0 ∧ keys.UserKeys.length = 0
      · exact ⟨List.length_eq_zero.mp hc.2, List.length_eq_zero.mp hc.1⟩
      · rw [if_neg hc] at h; exact absurd h (by simp)
    · rintro ⟨hu, hh⟩
      rw [if_pos ⟨by simp [hh], by simp [hu]⟩]
  · simp only [SSHFederation, sshRootsBody]
    constructor
    · intro h
      by_cases hc : keys.HostKeys.length = 0 ∧ keys.UserKeys.length = 0
      · exact ⟨List.length_eq_zero.mp hc.2, List.length_eq_zero.mp hc.1⟩
      · rw [if_neg hc] at h; exact absurd h (by simp)
    · rintro ⟨hu, hh⟩
      rw [if_pos ⟨by simp [hh], by simp [hu]⟩]
  · intro hne
    have hc : ¬(keys.HostKeys.length = 0 ∧ keys.UserKeys.length = 0) := by
      rcases hne with h | h
      · exact fun hq => h (List.length_eq_zero.mp hq.2)
      · exact fun hq => h (List.length_eq_zero.mp hq.1)
    constructor
    · simp only [SSHRoots, sshRootsBody]; rw [if_neg hc]
    · simp only [SSHFederation, sshRootsBody]; rw [if_neg hc]

/-- Witness for C8: an empty bundle is 404; a one-host-key bundle is a 200
response carrying that key. -/
theorem sshRoots_federation_spec_witness :
    (SSHRoots (.ok ⟨[], []⟩) = .failure 404 ↔ ([] : List SSHKey) = [] ∧ ([] : List SSHKey) = []) ∧
    (SSHRoots (.ok ⟨[], [.plain [9]]⟩) = .response 200 ⟨[], [⟨some (.plain [9])⟩]⟩ ∧
     SSHFederation (.ok ⟨[], [.plain [9]]⟩) = .response 200 ⟨[], [⟨some (.plain [9])⟩]⟩) :=
  ⟨(sshRoots_federation_spec ⟨[], []⟩).1,
   (sshRoots_federation_spec ⟨[], [.plain [9]]⟩).2.2 (Or.inr (by simp))⟩

/-! ## Claim theorems: request validation -/

/-- C5: `SSHSignRequest.Validate` returns an error exactly when the cert
type is non-empty and unknown, or the public key is empty, or the token is
empty, or a present identity CSR has a failing self-signature; and on a
validation failure the handler responds 400 having made no authority
(authorize / sign / KMS) call at all. -/
theorem sshSignRequest_validate_spec :
    (∀ s : SSHSignRequest,
      (s.Validate).isSome ↔
        (s.CertType ≠ "" ∧ s.CertType ≠ SSHUserCert ∧ s.CertType ≠ SSHHostCert) ∨
        s.PublicKey = [] ∨ s.OTT = "" ∨
        (∃ cr, s.IdentityCSR = some cr ∧ cr.sigOK = false)) ∧
    (∀ (A : SSHAuthority) (rctx : Ctx) (s : SSHSignRequest) (e : String),
      s.Validate = some e → SSHSign A rctx s = (.failure 400, [])) := by
  constructor
  · intro s
    rw [SSHSignRequest.Validate]
    by_cases h1 : s.CertType ≠ "" ∧ s.CertType ≠ SSHUserCert ∧ s.CertType ≠ SSHHostCert
    · simp [h1]
    · rw [if_neg h1]
      by_cases h2 : s.PublicKey.length = 0
      · simp only [if_pos h2, Option.isSome_some, true_iff]
        exact Or.inr (Or.inl (List.length_eq_zero.mp h2))
      · rw [if_neg h2]
        by_cases h3 : s.OTT.length = 0
        · simp only [if_pos h3, Option.isSome_some, true_iff]
          refine Or.inr (Or.inr (Or.inl ?_))
          cases hS : s.OTT with
          | mk data => rw [hS] at h3; simp at h3; simp [h3]
        · rw [if_neg h3]
          have hpk : ¬s.PublicKey = [] := fun hq => h2 (by simp [hq])
          have hott : ¬s.OTT = "" := fun hq => h3 (by simp [hq])
          cases hcsr : s.IdentityCSR with
          | none => simp [h1, hpk, hott]
          | some cr =>
            by_cases hsig : cr.sigOK
            · simp [h1, hpk, hott, hsig]
            · simp only [Bool.not_eq_true] at hsig
              simp [h1, hpk, hott, hsig]
  · intro A rctx s e h
    simp only [SSHSign, h]

/-- Witness for C5: a request with an empty token validates to an error and
the handler returns 400 with no authority calls. -/
theorem sshSignRequest_validate_spec_witness :
    SSHSign sampleAuthority sampleCtx { sampleBody with OTT := "" } = (.failure 400, []) :=
  sshSignRequest_validate_spec.2 sampleAuthority sampleCtx { sampleBody with OTT := "" }
    "missing or empty ott" (by decide)

/-! ## Claim theorems: wire codec -/

/-- C6: the JSON codec round-trips every SSH certificate and every SSH
public key (equal value, hence equal OpenSSH wire representation); on
decode, a JSON `null` or empty string yields absence with no error; and a
non-empty string holding a base64 plain public key makes the certificate
decoder return an error. -/
theorem ssh_codec_roundtrip :
    (∀ c : SSHCertificate, SSHCertificate.UnmarshalJSON c.MarshalJSON = .ok c) ∧
    (∀ p : SSHPublicKey, SSHPublicKey.UnmarshalJSON p.MarshalJSON = .ok p) ∧
    (SSHCertificate.UnmarshalJSON .null = .ok ⟨none⟩ ∧
     SSHCertificate.UnmarshalJSON (.str "") = .ok ⟨none⟩ ∧
     SSHPublicKey.UnmarshalJSON .null = .ok ⟨none⟩ ∧
     SSHPublicKey.UnmarshalJSON (.str "") = .ok ⟨none⟩) ∧
    (∀ d : List Nat,
      SSHCertificate.UnmarshalJSON (.str (b64Encode (marshalKey (.plain d)))) =
        .error "error decoding ssh certificate: not an *ssh.Certificate") := by
  refine ⟨?_, ?_, ⟨rfl, rfl, rfl, rfl⟩, ?_⟩
  · intro c
    cases hc : c.Certificate with
    | none =>
      cases c
      simp only at hc
      subst hc
      rfl
    | some cert =>
      cases c
      simp only at hc
      subst hc
      simp only [SSHCertificate.MarshalJSON, SSHCertificate.UnmarshalJSON,
        jsonUnmarshalString]
      rw [if_neg (b64Encode_marshalKey_ne_empty (.cert cert)), b64Decode_b64Encode]
      simp [parsePublicKey_marshalKey]
  · intro p
    cases p with
    | mk pk =>
      cases pk with
      | none => rfl
      | some k =>
        simp only [SSHPublicKey.MarshalJSON, SSHPublicKey.UnmarshalJSON,
          jsonUnmarshalString]
        rw [if_neg (b64Encode_marshalKey_ne_empty k), b64Decode_b64Encode]
        simp [parsePublicKey_marshalKey]
  · intro d
    simp only [SSHCertificate.UnmarshalJSON, jsonUnmarshalString]
    rw [if_neg (b64Encode_marshalKey_ne_empty (.plain d)), b64Decode_b64Encode]
    simp [parsePublicKey_marshalKey]

/-! ## Handler inversion lemmas -/

theorem parseAddUserKey_ok_isSome (b : Option (List Nat)) (k : Option SSHKey)
    (h : parseAddUserKey b = .ok k) : k.isSome = b.isSome := by
  cases b with
  | none =>
    simp only [parseAddUserKey] at h
    injection h with h
    subst h
    rfl
  | some bs =>
    simp only [parseAddUserKey] at h
    cases hp : parsePublicKey bs with
    | none => rw [hp] at h; exact absurd h (by simp)
    | some k' =>
      rw [hp] at h
      injection h with h
      subst h
      rfl

theorem sshSignAddUserStage_ok_isSome (A : SSHAuthority) (ctx : Ctx)
    (addUserPublicKey : Option SSHKey) (cert : SSHCertData)
    (o : Option SSHCertificate) (t : List AuthorityCall)
    (h : sshSignAddUserStage A ctx addUserPublicKey cert = (.ok o, t)) :
    o.isSome ↔ addUserPublicKey.isSome ∧ cert.CertType = UserCert ∧
      cert.ValidPrincipals.length = 1 := by
  cases addUserPublicKey with
  | none =>
    simp only [sshSignAddUserStage, Prod.mk.injEq] at h
    obtain ⟨h1, h2⟩ := h
    injection h1 with h1
    subst h1
    simp
  | some k =>
    simp only [sshSignAddUserStage] at h
    by_cases hc : cert.CertType = UserCert ∧ cert.ValidPrincipals.length = 1
    · rw [if_pos hc] at h
      cases hs : A.SignSSHAddUser ctx k cert with
      | error e => rw [hs] at h; simp at h
      | ok auc =>
        rw [hs] at h
        simp only [Prod.mk.injEq] at h
        obtain ⟨h1, h2⟩ := h
        injection h1 with h1
        subst h1
        simp [hc]
    · rw [if_neg hc] at h
      simp only [Prod.mk.injEq] at h
      obtain ⟨h1, h2⟩ := h
      injection h1 with h1
      subst h1
      simpa using fun h1 h2 => hc ⟨h1, h2⟩

theorem sshSignAddUserStage_trace (A : SSHAuthority) (ctx : Ctx)
    (addUserPublicKey : Option SSHKey) (cert : SSHCertData)
    (r : Except String (Option SSHCertificate)) (t : List AuthorityCall)
    (h : sshSignAddUserStage A ctx addUserPublicKey cert = (r, t)) :
    t = [] ∨ t = [.signSSHAddUser ctx] := by
  cases addUserPublicKey with
  | none =>
    simp only [sshSignAddUserStage, Prod.mk.injEq] at h
    exact Or.inl h.2.symm
  | some k =>
    simp only [sshSignAddUserStage] at h
    by_cases hc : cert.CertType = UserCert ∧ cert.ValidPrincipals.length = 1
    · rw [if_pos hc] at h
      cases hs : A.SignSSHAddUser ctx k cert with
      | error e =>
        rw [hs] at h
        simp only [Prod.mk.injEq] at h
        exact Or.inr h.2.symm
      | ok auc =>
        rw [hs] at h
        simp only [Prod.mk.injEq] at h
        exact Or.inr h.2.symm
    · rw [if_neg hc] at h
      simp only [Prod.mk.injEq] at h
      exact Or.inl h.2.symm

theorem sshSignIdentityStage_none (A : SSHAuthority) (rctx : Ctx)
    (body : SSHSignRequest) (cert : SSHCertData) (h : body.IdentityCSR = none) :
    sshSignIdentityStage A rctx body cert = (.ok [], []) := by
  simp [sshSignIdentityStage, h]

theorem sshSignIdentityStage_some_ok (A : SSHAuthority) (rctx : Ctx)
    (body : SSHSignRequest) (cert : SSHCertData) (cr : CertificateRequestData)
    (idc : List X509Cert) (t' : List AuthorityCall)
    (hcsr : body.IdentityCSR = some cr)
    (h : sshSignIdentityStage A rctx body cert = (.ok idc, t')) :
    ∃ signOpts,
      A.Authorize (NewContextWithMethod (NewContextWithSkipTokenReuse rctx) .SignMethod)
          body.OTT = .ok signOpts ∧
      t' = [.authorize (NewContextWithMethod (NewContextWithSkipTokenReuse rctx) .SignMethod)
              body.OTT,
            .signX509 (signOpts ++
              [.identityMod (toInt64 cert.ValidAfter) (toInt64 cert.ValidBefore)])] ∧
      A.Sign cr (signOpts ++
        [.identityMod (toInt64 cert.ValidAfter) (toInt64 cert.ValidBefore)]) = .ok idc := by
  simp only [sshSignIdentityStage, hcsr] at h
  cases hauth : A.Authorize (NewContextWithMethod (NewContextWithSkipTokenReuse rctx)
      .SignMethod) body.OTT with
  | error e => simp [hauth] at h
  | ok signOpts =>
    simp only [hauth] at h
    refine ⟨signOpts, rfl, ?_⟩
    cases hsg : A.Sign cr (signOpts ++
        [.identityMod (toInt64 cert.ValidAfter) (toInt64 cert.ValidBefore)]) with
    | error e => simp [hsg] at h
    | ok chain =>
      simp only [hsg, Prod.mk.injEq] at h
      obtain ⟨h1, h2⟩ := h
      injection h1 with h1
      subst h1
      exact ⟨h2.symm, by simp [certChainToPEM, hsg]⟩

theorem sshSignIdentityStage_authorize_fail (A : SSHAuthority) (rctx : Ctx)
    (body : SSHSignRequest) (cert : SSHCertData) (cr : CertificateRequestData) (e : String)
    (hcsr : body.IdentityCSR = some cr)
    (hauth : A.Authorize (NewContextWithMethod (NewContextWithSkipTokenReuse rctx)
        .SignMethod) body.OTT = .error e) :
    sshSignIdentityStage A rctx body cert =
      (.error 401,
       [.authorize (NewContextWithMethod (NewContextWithSkipTokenReuse rctx) .SignMethod)
          body.OTT]) := by
  simp [sshSignIdentityStage, hcsr, hauth]

theorem sshSignIdentityStage_trace_filter (A : SSHAuthority) (rctx : Ctx)
    (body : SSHSignRequest) (cert : SSHCertData)
    (r : Except Nat (List X509Cert)) (t' : List AuthorityCall)
    (h : sshSignIdentityStage A rctx body cert = (r, t')) :
    t'.filter AuthorityCall.isAuthorize =
      if body.IdentityCSR.isSome then
        [.authorize (NewContextWithMethod (NewContextWithSkipTokenReuse rctx) .SignMethod)
           body.OTT]
      else [] := by
  cases hcsr : body.IdentityCSR with
  | none =>
    simp only [sshSignIdentityStage, hcsr, Prod.mk.injEq] at h
    simp [← h.2, hcsr]
  | some cr =>
    simp only [sshSignIdentityStage, hcsr] at h
    cases hauth : A.Authorize (NewContextWithMethod (NewContextWithSkipTokenReuse rctx)
        .SignMethod) body.OTT with
    | error e =>
      simp only [hauth, Prod.mk.injEq] at h
      simp [← h.2, hcsr, AuthorityCall.isAuthorize]
    | ok signOpts =>
      simp only [hauth] at h
      cases hsg : A.Sign cr (signOpts ++
          [.identityMod (toInt64 cert.ValidAfter) (toInt64 cert.ValidBefore)]) with
      | error e =>
        simp only [hsg, Prod.mk.injEq] at h
        simp [← h.2, hcsr, AuthorityCall.isAuthorize]
      | ok chain =>
        simp only [hsg, Prod.mk.injEq] at h
        simp [← h.2, hcsr, AuthorityCall.isAuthorize]

theorem SSHSign_response_inv (A : SSHAuthority) (rctx : Ctx) (body : SSHSignRequest)
    (st : Nat) (resp : SSHSignResponse) (trace : List AuthorityCall)
    (h : SSHSign A rctx body = (.response st resp, trace)) :
    ∃ pk addUserKey signOpts cert o t idc t',
      body.Validate = none ∧
      parsePublicKey body.PublicKey = some pk ∧
      parseAddUserKey body.AddUserPublicKey = .ok addUserKey ∧
      A.Authorize (NewContextWithMethod rctx .SSHSignMethod) body.OTT = .ok signOpts ∧
      A.SignSSH (NewContextWithMethod rctx .SSHSignMethod) pk
        { CertType := body.CertType, KeyID := body.KeyID, Principals := body.Principals,
          ValidBefore := body.ValidBefore, ValidAfter := body.ValidAfter } signOpts =
        .ok cert ∧
      sshSignAddUserStage A (NewContextWithMethod rctx .SSHSignMethod) addUserKey cert =
        (.ok o, t) ∧
      sshSignIdentityStage A rctx body cert = (.ok idc, t') ∧
      st = 201 ∧
      resp = { Certificate := ⟨some cert⟩, AddUserCertificate := o,
               IdentityCertificate := idc } ∧
      trace = [.authorize (NewContextWithMethod rctx .SSHSignMethod) body.OTT,
               .signSSH (NewContextWithMethod rctx .SSHSignMethod)] ++ t ++ t' := by
  unfold SSHSign at h
  cases hv : body.Validate with
  | some e => simp [hv] at h
  | none =>
    simp only [hv] at h
    cases hpk : parsePublicKey body.PublicKey with
    | none => simp [hpk] at h
    | some pk =>
      simp only [hpk] at h
      cases hau : parseAddUserKey body.AddUserPublicKey with
      | error e => simp [hau] at h
      | ok addUserKey =>
        simp only [hau] at h
        cases hauth : A.Authorize (NewContextWithMethod rctx .SSHSignMethod) body.OTT with
        | error e => simp [hauth] at h
        | ok signOpts =>
          simp only [hauth] at h
          cases hsign : A.SignSSH (NewContextWithMethod rctx .SSHSignMethod) pk
              { CertType := body.CertType, KeyID := body.KeyID,
                Principals := body.Principals, ValidBefore := body.ValidBefore,
                ValidAfter := body.ValidAfter } signOpts with
          | error e => simp [hsign] at h
          | ok cert =>
            simp only [hsign] at h
            cases hstg : sshSignAddUserStage A (NewContextWithMethod rctx .SSHSignMethod)
                addUserKey cert with
            | mk r t =>
              cases r with
              | error e => simp [hstg] at h
              | ok o =>
                simp only [hstg] at h
                cases hid : sshSignIdentityStage A rctx body cert with
                | mk r' t' =>
                  cases r' with
                  | error st' => simp [hid] at h
                  | ok idc =>
                    simp only [hid, Prod.mk.injEq] at h
                    obtain ⟨h1, h2⟩ := h
                    injection h1 with hst hresp
                    exact ⟨pk, addUserKey, signOpts, cert, o, t, idc, t',
                      rfl, rfl, rfl, rfl, hsign, hstg, hid,
                      hst.symm, hresp.symm, h2.symm⟩

/-! ## Claim theorems: the SSH sign handler -/

/-- C1: in every successful (201) run of the SSH sign handler, the add-user
certificate is present in the response iff the request carried an
`addUserPublicKey`, the signed certificate is user-type, and it has exactly
one valid principal; and when all three conditions hold but
`SignSSHAddUser` fails, the whole request fails with a forbidden (403)
error. -/
theorem sshSign_addUser_iff :
    (∀ (A : SSHAuthority) (rctx : Ctx) (body : SSHSignRequest) (st : Nat)
        (resp : SSHSignResponse) (trace : List AuthorityCall),
      SSHSign A rctx body = (.response st resp, trace) →
      ∃ c, resp.Certificate = ⟨some c⟩ ∧
        (resp.AddUserCertificate.isSome ↔
          body.AddUserPublicKey.isSome ∧ c.CertType = UserCert ∧
            c.ValidPrincipals.length = 1)) ∧
    (∀ (A : SSHAuthority) (rctx : Ctx) (body : SSHSignRequest) (pk k : SSHKey)
        (signOpts : List SignOption) (cert : SSHCertData) (e : String),
      body.Validate = none →
      parsePublicKey body.PublicKey = some pk →
      parseAddUserKey body.AddUserPublicKey = .ok (some k) →
      A.Authorize (NewContextWithMethod rctx .SSHSignMethod) body.OTT = .ok signOpts →
      A.SignSSH (NewContextWithMethod rctx .SSHSignMethod) pk
        { CertType := body.CertType, KeyID := body.KeyID, Principals := body.Principals,
          ValidBefore := body.ValidBefore, ValidAfter := body.ValidAfter } signOpts =
        .ok cert →
      cert.CertType = UserCert →
      cert.ValidPrincipals.length = 1 →
      A.SignSSHAddUser (NewContextWithMethod rctx .SSHSignMethod) k cert = .error e →
      (SSHSign A rctx body).1 = .failure 403) := by
  constructor
  · intro A rctx body st resp trace h
    obtain ⟨pk, addUserKey, signOpts, cert, o, t, idc, t', hv, hpk, hau, hauth, hsign,
      hstg, hid, hst, hresp, htr⟩ := SSHSign_response_inv A rctx body st resp trace h
    have h1 := sshSignAddUserStage_ok_isSome _ _ _ _ _ _ hstg
    have h2 := parseAddUserKey_ok_isSome _ _ hau
    refine ⟨cert, ?_, ?_⟩
    · rw [hresp]
    · rw [hresp]
      simp only
      rw [h1, h2]
  · intro A rctx body pk k signOpts cert e hv hpk hau hauth hsign hct hpr hfail
    unfold SSHSign
    simp only [hv, hpk, hau, hauth, hsign, sshSignAddUserStage, hfail]
    rw [if_pos (⟨hct, hpr⟩ : cert.CertType = UserCert ∧ cert.ValidPrincipals.length = 1)]

/-- Witness for C1: a request with an add-user key against an
all-succeeding authority yields a response whose add-user certificate is
present; against an authority whose `SignSSHAddUser` fails, the same
request is rejected with 403. -/
theorem sshSign_addUser_iff_witness :
    (∃ c, SSHSignResponse.Certificate
        ⟨⟨some sampleCert⟩, some ⟨some sampleCert⟩, []⟩ = ⟨some c⟩ ∧
      ((some (⟨some sampleCert⟩ : SSHCertificate)).isSome ↔
        sampleBodyAddUser.AddUserPublicKey.isSome ∧ c.CertType = UserCert ∧
          c.ValidPrincipals.length = 1)) ∧
    (SSHSign sampleAuthorityAddUserFail sampleCtx sampleBodyAddUser).1 = .failure 403 :=
  ⟨sshSign_addUser_iff.1 sampleAuthority sampleCtx sampleBodyAddUser 201
      ⟨⟨some sampleCert⟩, some ⟨some sampleCert⟩, []⟩
      [.authorize ⟨some .SSHSignMethod, false⟩ "TOKEN-A",
       .signSSH ⟨some .SSHSignMethod, false⟩,
       .signSSHAddUser ⟨some .SSHSignMethod, false⟩]
      (by decide),
   sshSign_addUser_iff.2 sampleAuthorityAddUserFail sampleCtx sampleBodyAddUser
      (.plain [3]) (.plain [4]) [.policy 7] sampleCert "add-user denied"
      rfl rfl rfl rfl rfl rfl rfl rfl⟩

/-- C2: whenever the request carries an identity CSR and the handler
succeeds, the sign-option list passed to the X.509 `Sign` call has the
identity lifetime modifier as its last element, carrying
`NotBefore = Unix(cert.ValidAfter)` and `NotAfter = Unix(cert.ValidBefore)`
of the just-signed SSH certificate returned in the response; `Enforce`
overwrites exactly the `NotBefore` and `NotAfter` fields of the X.509
certificate it processes (all other fields unchanged, nil error), so a
certificate processed by that final modifier leaves with exactly the SSH
certificate's lifetime. -/
theorem sshSign_identity_lifetime :
    (∀ (A : SSHAuthority) (rctx : Ctx) (body : SSHSignRequest)
        (cr : CertificateRequestData) (st : Nat) (resp : SSHSignResponse)
        (trace : List AuthorityCall),
      body.IdentityCSR = some cr →
      SSHSign A rctx body = (.response st resp, trace) →
      ∃ c signOpts,
        resp.Certificate = ⟨some c⟩ ∧
        AuthorityCall.signX509 (signOpts ++
          [.identityMod (toInt64 c.ValidAfter) (toInt64 c.ValidBefore)]) ∈ trace ∧
        (signOpts ++
          [SignOption.identityMod (toInt64 c.ValidAfter) (toInt64 c.ValidBefore)]).getLast? =
          some (.identityMod (toInt64 c.ValidAfter) (toInt64 c.ValidBefore)) ∧
        (∀ xc : X509Cert,
          (identityModifier.Enforce
            ⟨toInt64 c.ValidAfter, toInt64 c.ValidBefore⟩ xc).1.NotBefore =
              toInt64 c.ValidAfter ∧
          (identityModifier.Enforce
            ⟨toInt64 c.ValidAfter, toInt64 c.ValidBefore⟩ xc).1.NotAfter =
              toInt64 c.ValidBefore)) ∧
    (∀ (m : identityModifier) (xc : X509Cert),
      (m.Enforce xc).1.NotBefore = m.NotBefore ∧
      (m.Enforce xc).1.NotAfter = m.NotAfter ∧
      (m.Enforce xc).1.Subject = xc.Subject ∧
      (m.Enforce xc).1.SerialNumber = xc.SerialNumber ∧
      (m.Enforce xc).1.PublicKey = xc.PublicKey ∧
      (m.Enforce xc).1.Extensions = xc.Extensions ∧
      (m.Enforce xc).2 = none) := by
  constructor
  · intro A rctx body cr st resp trace hcsr h
    obtain ⟨pk, addUserKey, signOpts, cert, o, t, idc, t', hv, hpk, hau, hauth, hsign,
      hstg, hid, hst, hresp, htr⟩ := SSHSign_response_inv A rctx body st resp trace h
    obtain ⟨signOpts', hauth2, ht', hsg⟩ :=
      sshSignIdentityStage_some_ok A rctx body cert cr idc t' hcsr hid
    refine ⟨cert, signOpts', ?_, ?_, ?_, ?_⟩
    · rw [hresp]
    · rw [htr, ht']
      simp
    · exact List.getLast?_concat _
    · intro xc
      exact ⟨rfl, rfl⟩
  · intro m xc
    exact ⟨rfl, rfl, rfl, rfl, rfl, rfl, rfl⟩

/-- Witness for C2: a run with an identity CSR against the all-succeeding
authority. -/
theorem sshSign_identity_lifetime_witness :
    ∃ c signOpts,
      SSHSignResponse.Certificate ⟨⟨some sampleCert⟩, none, [sampleX509]⟩ = ⟨some c⟩ ∧
      AuthorityCall.signX509 (signOpts ++
        [.identityMod (toInt64 c.ValidAfter) (toInt64 c.ValidBefore)]) ∈
        [AuthorityCall.authorize ⟨some .SSHSignMethod, false⟩ "TOKEN-A",
         .signSSH ⟨some .SSHSignMethod, false⟩,
         .authorize ⟨some .SignMethod, true⟩ "TOKEN-A",
         .signX509 [.policy 7, .identityMod (toInt64 1000) (toInt64 2000)]] ∧
      (signOpts ++
        [SignOption.identityMod (toInt64 c.ValidAfter) (toInt64 c.ValidBefore)]).getLast? =
        some (.identityMod (toInt64 c.ValidAfter) (toInt64 c.ValidBefore)) ∧
      (∀ xc : X509Cert,
        (identityModifier.Enforce
          ⟨toInt64 c.ValidAfter, toInt64 c.ValidBefore⟩ xc).1.NotBefore =
            toInt64 c.ValidAfter ∧
        (identityModifier.Enforce
          ⟨toInt64 c.ValidAfter, toInt64 c.ValidBefore⟩ xc).1.NotAfter =
            toInt64 c.ValidBefore) :=
  sshSign_identity_lifetime.1 sampleAuthority sampleCtx sampleBodyCSR ⟨true, 21⟩ 201
    ⟨⟨some sampleCert⟩, none, [sampleX509]⟩
    [.authorize ⟨some .SSHSignMethod, false⟩ "TOKEN-A",
     .signSSH ⟨some .SSHSignMethod, false⟩,
     .authorize ⟨some .SignMethod, true⟩ "TOKEN-A",
     .signX509 [.policy 7, .identityMod (toInt64 1000) (toInt64 2000)]]
    rfl (by decide)

/-- C4: in a sign-handler run that reaches the identity step, a second
`Authorize` call is made iff the request carried an identity CSR; it
receives a context derived fresh from the request context carrying the
skip-token-reuse marker and the `SignMethod` marker (replacing the
`SSHSignMethod` marker used by the first call); and its failure makes the
whole run fail with a 401, writing no certificate response. -/
theorem sshSign_second_authorize :
    (∀ (A : SSHAuthority) (rctx : Ctx) (body : SSHSignRequest) (st : Nat)
        (resp : SSHSignResponse) (trace : List AuthorityCall),
      SSHSign A rctx body = (.response st resp, trace) →
      trace.filter AuthorityCall.isAuthorize =
        if body.IdentityCSR.isSome then
          [.authorize (NewContextWithMethod rctx .SSHSignMethod) body.OTT,
           .authorize (NewContextWithMethod (NewContextWithSkipTokenReuse rctx) .SignMethod)
             body.OTT]
        else [.authorize (NewContextWithMethod rctx .SSHSignMethod) body.OTT]) ∧
    (∀ rctx : Ctx,
      (NewContextWithMethod (NewContextWithSkipTokenReuse rctx) .SignMethod).skipTokenReuse =
        true ∧
      (NewContextWithMethod (NewContextWithSkipTokenReuse rctx) .SignMethod).method =
        some .SignMethod ∧
      (NewContextWithMethod rctx .SSHSignMethod).method = some .SSHSignMethod) ∧
    (∀ (A : SSHAuthority) (rctx : Ctx) (body : SSHSignRequest)
        (cr : CertificateRequestData) (pk : SSHKey) (addUserKey : Option SSHKey)
        (signOpts : List SignOption) (cert : SSHCertData)
        (o : Option SSHCertificate) (t : List AuthorityCall) (e : String),
      body.Validate = none →
      parsePublicKey body.PublicKey = some pk →
      parseAddUserKey body.AddUserPublicKey = .ok addUserKey →
      A.Authorize (NewContextWithMethod rctx .SSHSignMethod) body.OTT = .ok signOpts →
      A.SignSSH (NewContextWithMethod rctx .SSHSignMethod) pk
        { CertType := body.CertType, KeyID := body.KeyID, Principals := body.Principals,
          ValidBefore := body.ValidBefore, ValidAfter := body.ValidAfter } signOpts =
        .ok cert →
      sshSignAddUserStage A (NewContextWithMethod rctx .SSHSignMethod) addUserKey cert =
        (.ok o, t) →
      body.IdentityCSR = some cr →
      A.Authorize (NewContextWithMethod (NewContextWithSkipTokenReuse rctx) .SignMethod)
        body.OTT = .error e →
      SSHSign A rctx body =
        (.failure 401,
         [.authorize (NewContextWithMethod rctx .SSHSignMethod) body.OTT,
          .signSSH (NewContextWithMethod rctx .SSHSignMethod)] ++ t ++
          [.authorize (NewContextWithMethod (NewContextWithSkipTokenReuse rctx) .SignMethod)
             body.OTT])) := by
  refine ⟨?_, fun rctx => ⟨rfl, rfl, rfl⟩, ?_⟩
  · intro A rctx body st resp trace h
    obtain ⟨pk, addUserKey, signOpts, cert, o, t, idc, t', hv, hpk, hau, hauth, hsign,
      hstg, hid, hst, hresp, htr⟩ := SSHSign_response_inv A rctx body st resp trace h
    have htf := sshSignIdentityStage_trace_filter A rctx body cert _ _ hid
    have htt := sshSignAddUserStage_trace A _ addUserKey cert _ _ hstg
    rw [htr, List.filter_append, List.filter_append, htf]
    have hpre : List.filter AuthorityCall.isAuthorize
        [AuthorityCall.authorize (NewContextWithMethod rctx .SSHSignMethod) body.OTT,
         .signSSH (NewContextWithMethod rctx .SSHSignMethod)] =
        [.authorize (NewContextWithMethod rctx .SSHSignMethod) body.OTT] := rfl
    have htnil : List.filter AuthorityCall.isAuthorize t = [] := by
      rcases htt with rfl | rfl <;> rfl
    rw [hpre, htnil]
    cases hcsr : body.IdentityCSR <;> simp [hcsr]
  · intro A rctx body cr pk addUserKey signOpts cert o t e hv hpk hau hauth hsign hstg
      hcsr hfail
    have hstage := sshSignIdentityStage_authorize_fail A rctx body cert cr e hcsr hfail
    unfold SSHSign
    simp only [hv, hpk, hau, hauth, hsign, hstg, hstage]

/-- Witness for C4: a run with an identity CSR shows the twin authorize
calls and the derived context; an authority that rejects token reuse makes
the same run fail with 401. -/
theorem sshSign_second_authorize_witness :
    List.filter AuthorityCall.isAuthorize
      [AuthorityCall.authorize ⟨some .SSHSignMethod, false⟩ "TOKEN-A",
       .signSSH ⟨some .SSHSignMethod, false⟩,
       .authorize ⟨some .SignMethod, true⟩ "TOKEN-A",
       .signX509 [.policy 7, .identityMod (toInt64 1000) (toInt64 2000)]] =
      (if sampleBodyCSR.IdentityCSR.isSome then
        [.authorize (NewContextWithMethod sampleCtx .SSHSignMethod) sampleBodyCSR.OTT,
         .authorize (NewContextWithMethod (NewContextWithSkipTokenReuse sampleCtx)
           .SignMethod) sampleBodyCSR.OTT]
      else [.authorize (NewContextWithMethod sampleCtx .SSHSignMethod) sampleBodyCSR.OTT]) ∧
    SSHSign sampleAuthorityReuseFail sampleCtx sampleBodyCSR =
      (.failure 401,
       [.authorize (NewContextWithMethod sampleCtx .SSHSignMethod) sampleBodyCSR.OTT,
        .signSSH (NewContextWithMethod sampleCtx .SSHSignMethod)] ++ [] ++
        [.authorize (NewContextWithMethod (NewContextWithSkipTokenReuse sampleCtx)
          .SignMethod) sampleBodyCSR.OTT]) :=
  ⟨sshSign_second_authorize.1 sampleAuthority sampleCtx sampleBodyCSR 201
      ⟨⟨some sampleCert⟩, none, [sampleX509]⟩
      [.authorize ⟨some .SSHSignMethod, false⟩ "TOKEN-A",
       .signSSH ⟨some .SSHSignMethod, false⟩,
       .authorize ⟨some .SignMethod, true⟩ "TOKEN-A",
       .signX509 [.policy 7, .identityMod (toInt64 1000) (toInt64 2000)]]
      (by decide),
   sshSign_second_authorize.2.2 sampleAuthorityReuseFail sampleCtx sampleBodyCSR
      ⟨true, 21⟩ (.plain [3]) none [.policy 7] sampleCert none [] "token already used"
      rfl rfl rfl rfl rfl rfl rfl rfl⟩
